import Mathlib

/-!
Verification of the transcript-acquisition and map-reduce summarization
pipeline of the youtube-summarizer backend (`app.ts`).

Text is shallowly embedded as `List Char` (JavaScript strings); the
external collaborators (caption source, metadata service, LLM backend)
are embedded as explicit oracles recording either a returned value or a
thrown exception, so that every `try/catch` of the source becomes a
`match` on an `Except` value.
-/

set_option autoImplicit false

/-- JavaScript strings are modelled as lists of characters. -/
abbrev Str := List Char

/-- Whitespace test, modelling the characters of the regex class `\s`
that occur in transcripts (space, tab, newline, carriage return). -/
def isWs (c : Char) : Bool :=
  c = ' ' || c = '\t' || c = '\n' || c = '\r'

/-- Sentence-terminal punctuation, the class `[.!?]` of the chunker's
split regex in `chunk` (app.ts line 149). -/
def isSentEnd (c : Char) : Bool :=
  c = '.' || c = '!' || c = '?'

/-- Scanner for `text.split(/(?<=[.!?])\s+/)` (app.ts line 149): a
maximal whitespace run whose preceding character is sentence-terminal
punctuation separates two pieces and is consumed.  `prev` is the
character preceding the scan position (the regex lookbehind); `acc` is
the reversed current piece, or `none` while the scanner is inside a
separator run whose whitespace is being consumed. -/
def splitAux : Option Char → Option Str → Str → List Str
  | _, acc, [] => [(acc.getD []).reverse]
  | prev, acc, c :: rest =>
    match acc with
    | none =>
      if isWs c then splitAux (some c) none rest
      else splitAux (some c) (some [c]) rest
    | some a =>
      if isWs c && (match prev with | some p => isSentEnd p | none => false) then
        a.reverse :: splitAux (some c) none rest
      else
        splitAux (some c) (some (c :: a)) rest

/-- The piece list `text.split(/(?<=[.!?])\s+/)` of app.ts line 149. -/
def splitSentences (text : Str) : List Str :=
  splitAux none (some []) text

/-- JavaScript `String.prototype.trim`, restricted to the modelled
whitespace characters. -/
def trim (l : Str) : Str :=
  ((l.dropWhile isWs).reverse.dropWhile isWs).reverse

/-- A string with no leading and no trailing whitespace. -/
def noEdgeWs (l : Str) : Prop :=
  l.dropWhile isWs = l ∧ l.reverse.dropWhile isWs = l.reverse

instance (l : Str) : Decidable (noEdgeWs l) :=
  inferInstanceAs (Decidable (_ ∧ _))

/-- JavaScript `Array.prototype.join(sep)` for a one-character
separator. -/
def joinWith (c : Char) : List Str → Str
  | [] => []
  | p :: ps =>
    match ps with
    | [] => p
    | _ :: _ => p ++ c :: joinWith c ps

/-- Loop body of `chunk` (app.ts lines 147-158): fold the sentence
pieces into a buffer, flushing `buf.trim()` whenever
`(buf + " " + piece).length > maxLen`, and flush a final non-empty
trimmed buffer at the end. -/
def chunkAux (maxLen : Nat) : List Str → Str → List Str
  | [], buf => if trim buf = [] then [] else [trim buf]
  | piece :: rest, buf =>
    if (buf ++ ' ' :: piece).length > maxLen then
      trim buf :: chunkAux maxLen rest piece
    else
      chunkAux maxLen rest (if buf = [] then piece else buf ++ ' ' :: piece)

/-- The chunker `chunk(text, maxLen)` of app.ts lines 146-159 (the
source's default for `maxLen` is 8000; the pipeline calls it with
6500). -/
def chunk (text : Str) (maxLen : Nat) : List Str :=
  chunkAux maxLen (splitSentences text) []

/-- The regex `^[\w-]{11}$` character class `[\w-]` (app.ts line 85):
ASCII alphanumeric, underscore or hyphen. -/
def isWordChar (c : Char) : Bool :=
  c.isAlphanum || c = '_' || c = '-'

/-- The bare-identifier grammar test `/^[\w-]{11}$/.test(input)`
(app.ts line 85). -/
def matchesIdGrammar (s : Str) : Bool :=
  decide (s.length = 11) && s.all isWordChar

/-- JavaScript `String.prototype.includes`: `pat` occurs as a
contiguous substring of `s`. -/
def containsStr : Str → Str → Bool
  | [], pat => pat.isEmpty
  | c :: rest, pat => pat.isPrefixOf (c :: rest) || containsStr rest pat

/-- JavaScript `String.prototype.split` on a one-character separator
(used for `url.pathname.split("/")`, app.ts line 90). -/
def splitOnChar (sep : Char) : Str → List Str
  | [] => [[]]
  | c :: rest =>
    if c = sep then
      [] :: splitOnChar sep rest
    else
      match splitOnChar sep rest with
      | [] => [[c]]
      | h :: t => (c :: h) :: t

/-- JavaScript `Array.prototype.indexOf` on a list of strings (used
for `parts.indexOf("embed")`, app.ts line 91); `none` models the
sentinel `-1`. -/
def indexOfSeg (target : Str) : List Str → Option Nat
  | [] => none
  | p :: rest =>
    if p = target then some 0 else (indexOfSeg target rest).map (· + 1)

/-- The components of a parsed WHATWG `URL` object that
`extractVideoId` reads: `hostname`, `pathname` and the `searchParams`
key-value pairs. -/
structure URLParts where
  hostname : Str
  pathname : Str
  query : List (Str × Str)
deriving DecidableEq

/-- Model of `URLSearchParams` construction: split the query string on
`&`; each non-empty `key=value` group maps to its key and the text
after the first `=` (a group with no `=` has value `""`). -/
def parseQuery (s : Str) : List (Str × Str) :=
  (splitOnChar '&' s).filterMap fun kv =>
    if kv = [] then none
    else
      let key := kv.takeWhile (fun c => c ≠ '=')
      some (key, (kv.drop key.length).drop 1)

/-- Model of the WHATWG `new URL(input)` constructor (an external
platform API), restricted to the shapes `extractVideoId` consumes: a
non-empty all-letter scheme followed by `://`, an authority whose
hostname stops at `:` (port), a pathname defaulting to `/`, and a
query after `?` and before `#`.  Inputs outside this shape throw,
modelled as `none`. -/
def parseURL (s : Str) : Option URLParts :=
  let scheme := s.takeWhile (fun c => c ≠ ':')
  if scheme = [] ∨ ¬ scheme.all (fun c => c.isAlpha) then none
  else
    let rest := s.drop scheme.length
    if rest.take 3 = [':', '/', '/'] then
      let rest := rest.drop 3
      let auth := rest.takeWhile (fun c => c ≠ '/' && c ≠ '?' && c ≠ '#')
      let hostname := auth.takeWhile (fun c => c ≠ ':')
      let after := rest.drop auth.length
      let path := after.takeWhile (fun c => c ≠ '?' && c ≠ '#')
      let pathname := if path = [] then ['/'] else path
      let afterPath := after.drop path.length
      let query :=
        if afterPath.take 1 = ['?'] then
          parseQuery ((afterPath.drop 1).takeWhile (fun c => c ≠ '#'))
        else []
      if hostname = [] then none else some ⟨hostname, pathname, query⟩
    else none

/-- JavaScript `searchParams.get(key)`: the value of the first pair
with the given key, or `null`. -/
def getParam (q : List (Str × Str)) (key : Str) : Option Str :=
  (q.find? (fun kv => decide (kv.fst = key))).map (fun kv => kv.snd)

/-- The embed-path rule of `extractVideoId` (app.ts lines 90-92):
`parts = url.pathname.split("/")`, `idx = parts.indexOf("embed")`, and
`parts[idx + 1]` is returned when present and truthy (non-empty). -/
def embedOf (url : URLParts) : Option Str :=
  let parts := splitOnChar '/' url.pathname
  match indexOfSeg ("embed".toList) parts with
  | some idx =>
    match parts.get? (idx + 1) with
    | some seg => if seg = [] then none else some seg
    | none => none
  | none => none

/-- The video-reference resolver `extractVideoId` (app.ts lines
83-97): accept a bare 11-character id, else parse as URL and apply the
short-link-host rule, the `v` query-parameter rule (taken when truthy,
i.e. non-empty), then the embed-path rule; a URL parse failure (the
source's `catch`) or no rule match yields `null`. -/
def extractVideoId (input : Str) : Option Str :=
  if matchesIdGrammar input then some input
  else
    match parseURL input with
    | none => none
    | some url =>
      if containsStr url.hostname ("youtu.be".toList) then
        some (url.pathname.drop 1)
      else
        match getParam url.query ("v".toList) with
        | some v => if v ≠ [] then some v else embedOf url
        | none => embedOf url

/-- The structured summary object of `summarizeOutputSchema` (app.ts
lines 167-174): title, paragraph summary, bullet list and optional
warnings. -/
structure SummaryResult where
  title : Str
  summary : Str
  bullets : List Str
  warnings : Option (List Str)
deriving DecidableEq

/-- Sentinel returned for an unresolvable video reference (app.ts
lines 186-191). -/
def invalidResult : SummaryResult :=
  ⟨"Invalid YouTube URL or ID".toList,
   "The provided input is not a valid YouTube URL or video ID.".toList,
   [], some ["Invalid YouTube URL or ID provided.".toList]⟩

/-- Sentinel returned when no transcript tier produced text (app.ts
lines 197-202). -/
def unavailableResult : SummaryResult :=
  ⟨"Transcript not available".toList,
   "This video has no subtitles or transcript.".toList,
   [], some ["YouTube did not expose captions for this video.".toList]⟩

/-- Sentinel returned when the chunker produced no chunks (app.ts
lines 209-214). -/
def emptyTranscriptResult : SummaryResult :=
  ⟨"Transcript is empty".toList,
   "The transcript for this video is empty or could not be processed.".toList,
   [], some ["Transcript is empty or invalid.".toList]⟩

/-- Sentinel returned when every stage-1 chunk call failed (app.ts
lines 241-246). -/
def allFailedResult : SummaryResult :=
  ⟨"Summary unavailable".toList,
   "Unable to generate summary from the transcript.".toList,
   [], some ["Failed to generate summary from transcript chunks.".toList]⟩

/-- Sentinel returned when the stage-2 call returned no output (app.ts
lines 268-273). -/
def noOutputResult : SummaryResult :=
  ⟨"Summary unavailable".toList,
   "Unable to generate a valid summary from the transcript.".toList,
   [], some ["Failed to parse final summary output.".toList]⟩

/-- Sentinel returned when the stage-2 call threw (app.ts lines
277-282). -/
def genErrorResult : SummaryResult :=
  ⟨"Summary generation error".toList,
   "An error occurred while generating the summary.".toList,
   [], some ["Exception during final summary generation.".toList]⟩

/-- Oracle environment for the external collaborators of one request:
the two caption fetches (`YoutubeTranscript.fetchTranscript` with and
without a language, returning cue texts or throwing), the configured
metadata API key, the metadata service (returning the optional first
item's title and description, or throwing), the stage-1 free-text
generation per chunk index and chunk text (returning `res.text`, or
throwing), and the stage-2 schema-constrained generation on the
combined bullet text (returning the optional `finalRes.output`, or
throwing).  `Except.error ()` models a thrown exception. -/
structure GenEnv where
  tier1 : Str → Except Unit (List Str)
  tier2 : Str → Except Unit (List Str)
  apiKey : Option Str
  meta : Str → Except Unit (Option (Str × Str))
  gen1 : Nat → Str → Except Unit Str
  gen2 : Str → Except Unit (Option SummaryResult)

/-- Outcome of one caption tier of `fetchTranscript` (app.ts lines
103-120): a thrown fetch or an empty cue list falls through to the
next tier (`none`); a non-empty cue list returns the cue texts joined
with single spaces. -/
def tierTexts (r : Except Unit (List Str)) : Option Str :=
  match r with
  | .ok texts => if texts.length ≠ 0 then some (joinWith ' ' texts) else none
  | .error _ => none

/-- The transcript acquirer `fetchTranscript` (app.ts lines 101-143),
instrumented with the list of tiers it attempts (1: captions with
`lang: "en"`; 2: captions with no language; 3: metadata service): each
later tier runs only when the earlier ones produced nothing, tier 3
runs only when an API key is configured, and its success synthesizes
`title + "\n" + description`. -/
def fetchTranscriptT (env : GenEnv) (videoId : Str) : List Nat × Option Str :=
  match tierTexts (env.tier1 videoId) with
  | some t => ([1], some t)
  | none =>
    match tierTexts (env.tier2 videoId) with
    | some t => ([1, 2], some t)
    | none =>
      match env.apiKey with
      | none => ([1, 2], none)
      | some _ =>
        match env.meta videoId with
        | .ok (some td) => ([1, 2, 3], some (td.fst ++ '\n' :: td.snd))
        | .ok none => ([1, 2, 3], none)
        | .error _ => ([1, 2, 3], none)

/-- The value `fetchTranscript` returns to the pipeline (`null`
modelled as `none`). -/
def fetchTranscript (env : GenEnv) (videoId : Str) : Option Str :=
  (fetchTranscriptT env videoId).snd

/-- The stage-1 loop of the pipeline (app.ts lines 217-236): for each
chunk in order, one generation call; its text is recorded (an empty
`res.text` is recorded as `""`), and a thrown call records `""`. -/
def stageOne (env : GenEnv) (parts : List Str) : List Str :=
  parts.enum.map fun p =>
    match env.gen1 p.fst p.snd with
    | .ok t => t
    | .error _ => []

/-- The flow body of `summarizeYouTube` (app.ts lines 177-285),
instrumented with the argument of the stage-2 call when one is made
(`none` when stage 2 is never invoked; the loop structure makes at
most one stage-2 call).  Mirrors the source's truthiness checks:
`!videoId`, `!transcript`, `parts.length === 0` and
`!combinedBullets`. -/
def summarizeT (env : GenEnv) (urlOrId : Str) : SummaryResult × Option Str :=
  match extractVideoId urlOrId with
  | none => (invalidResult, none)
  | some videoId =>
    if videoId = [] then (invalidResult, none)
    else
      match fetchTranscript env videoId with
      | none => (unavailableResult, none)
      | some transcript =>
        if transcript = [] then (unavailableResult, none)
        else
          let parts := chunk transcript 6500
          if parts.length = 0 then (emptyTranscriptResult, none)
          else
            let combined :=
              joinWith '\n' ((stageOne env parts).filter (fun p => !p.isEmpty))
            if combined = [] then (allFailedResult, none)
            else
              match env.gen2 combined with
              | .ok (some out) => (out, some combined)
              | .ok none => (noOutputResult, some combined)
              | .error _ => (genErrorResult, some combined)

/-- The summarization pipeline's external result (app.ts lines
177-285). -/
def summarizeYouTube (env : GenEnv) (urlOrId : Str) : SummaryResult :=
  (summarizeT env urlOrId).fst

/-- The rate limiter's window in milliseconds (app.ts line 307). -/
def WINDOW_MS : Int := 30000

/-- The rate limiter's admission threshold (app.ts line 308). -/
def MAX_REQ : Nat := 15

/-- One admission decision of the rate limiter middleware (app.ts
lines 310-324) for one client identity: prune the identity's recorded
timestamps to those with `now - t < WINDOW_MS`, append `now`, store
the result back, then admit unless the stored length exceeds
`MAX_REQ`. -/
def rateStep (arr : List Int) (now : Int) : List Int × Bool :=
  let arr2 := (arr.filter (fun t => decide (now - t < WINDOW_MS))) ++ [now]
  (arr2, decide (arr2.length ≤ MAX_REQ))

/-- A sequence of requests from one client identity: fold `rateStep`
over the request times, collecting the admission decisions. -/
def runLimiter : List Int → List Int → List Int × List Bool
  | st, [] => (st, [])
  | st, t :: ts =>
    let s := rateStep st t
    let r := runLimiter s.fst ts
    (r.fst, s.snd :: r.snd)

/-- Expected decision sequence when no timestamp is ever pruned:
starting from `n0` stored entries, the k-th further request is
admitted when `n0 + k + 1 ≤ MAX_REQ`. -/
def expectedDecisions : Nat → Nat → List Bool
  | _, 0 => []
  | n0, Nat.succ k => decide (n0 + 1 ≤ MAX_REQ) :: expectedDecisions (n0 + 1) k

/-- A concrete structured output used by witness environments. -/
def resW : SummaryResult :=
  ⟨"T".toList, "S".toList, ["b".toList], none⟩

/-- Witness environment: captions succeed, stage 1 succeeds, and the
stage-2 call throws. -/
def envC1 : GenEnv where
  tier1 := fun _ => .ok ["Hello.".toList]
  tier2 := fun _ => .error ()
  apiKey := none
  meta := fun _ => .error ()
  gen1 := fun _ _ => .ok ("pt".toList)
  gen2 := fun _ => .error ()

/-- Witness environment: tier 1 throws, tier 2 returns no cues, and
the configured metadata service returns a title and description. -/
def envC3 : GenEnv where
  tier1 := fun _ => .error ()
  tier2 := fun _ => .ok []
  apiKey := some ("k".toList)
  meta := fun _ => .ok (some ("T".toList, "D".toList))
  gen1 := fun _ _ => .error ()
  gen2 := fun _ => .ok none

/-- Witness environment: captions succeed, stage 1 succeeds, and the
stage-2 call returns a structured output. -/
def envC4 : GenEnv where
  tier1 := fun _ => .ok ["Hello.".toList]
  tier2 := fun _ => .error ()
  apiKey := none
  meta := fun _ => .error ()
  gen1 := fun _ _ => .ok ("bp".toList)
  gen2 := fun _ => .ok (some resW)

lemma trim_nil : trim [] = [] := rfl

lemma trim_length_le (l : Str) : (trim l).length ≤ l.length := by
  unfold trim
  have h1 := (List.dropWhile_sublist (l := l) isWs).length_le
  have h2 := (List.dropWhile_sublist (l := (l.dropWhile isWs).reverse) isWs).length_le
  simp only [List.length_reverse] at h2 ⊢
  omega

lemma noEdgeWs_trim {l : Str} (h : noEdgeWs l) : trim l = l := by
  unfold trim
  rw [h.1, h.2, List.reverse_reverse]

lemma not_ws_of_dropWhile_cons {c : Char} {t : Str}
    (h : List.dropWhile isWs (c :: t) = c :: t) : isWs c = false := by
  by_cases hc : isWs c = true
  · exfalso
    rw [List.dropWhile_cons, if_pos hc] at h
    have hl := (List.dropWhile_sublist (l := t) isWs).length_le
    have hlen := congrArg List.length h
    simp only [List.length_cons] at hlen
    omega
  · simpa using hc

lemma dropWhile_cons_of_neg {c : Char} {t : Str} (h : isWs c = false) :
    List.dropWhile isWs (c :: t) = c :: t := by
  simp [List.dropWhile_cons, h]

lemma noEdgeWs_glue {buf p : Str} (hb : buf ≠ []) (hp : p ≠ [])
    (h1 : noEdgeWs buf) (h2 : noEdgeWs p) : noEdgeWs (buf ++ ' ' :: p) := by
  obtain ⟨b, bs, rfl⟩ : ∃ b bs, buf = b :: bs := by
    cases buf with
    | nil => exact absurd rfl hb
    | cons b bs => exact ⟨b, bs, rfl⟩
  obtain ⟨r, rs, hrev⟩ : ∃ r rs, p.reverse = r :: rs := by
    cases hpr : p.reverse with
    | nil => exact absurd (by simpa using congrArg List.reverse hpr) hp
    | cons r rs => exact ⟨r, rs, rfl⟩
  constructor
  · have hbhead := not_ws_of_dropWhile_cons h1.1
    simpa using dropWhile_cons_of_neg (t := bs ++ ' ' :: p) hbhead
  · have hrw : ((b :: bs) ++ ' ' :: p).reverse = r :: (rs ++ ' ' :: (b :: bs).reverse) := by
      rw [List.reverse_append]
      simp [hrev]
    rw [hrw]
    have hphead : isWs r = false := by
      have := h2.2
      rw [hrev] at this
      exact not_ws_of_dropWhile_cons this
    exact dropWhile_cons_of_neg hphead

lemma joinWith_cons (c : Char) (x : Str) {l : List Str} (h : l ≠ []) :
    joinWith c (x :: l) = x ++ c :: joinWith c l := by
  cases l with
  | nil => exact absurd rfl h
  | cons y t => rfl

lemma joinWith_glue (c : Char) (a b : Str) (l : List Str) :
    joinWith c ((a ++ c :: b) :: l) = joinWith c (a :: b :: l) := by
  cases l with
  | nil => rfl
  | cons x t =>
    show (a ++ c :: b) ++ c :: joinWith c (x :: t) = a ++ c :: (b ++ c :: joinWith c (x :: t))
    simp [List.append_assoc]

lemma length_le_joinWith_head (c : Char) (p : Str) (ps : List Str) :
    p.length ≤ (joinWith c (p :: ps)).length := by
  cases ps with
  | nil => exact Nat.le_refl _
  | cons q t =>
    show p.length ≤ (p ++ c :: joinWith c (q :: t)).length
    simp only [List.length_append, List.length_cons]
    omega

lemma joinWith_noEdgeWs : ∀ (ps : List Str), ps ≠ [] →
    (∀ p ∈ ps, p ≠ [] ∧ noEdgeWs p) →
    joinWith ' ' ps ≠ [] ∧ noEdgeWs (joinWith ' ' ps)
  | [], h, _ => absurd rfl h
  | [p], _, hps => by
    simpa [joinWith] using hps p (List.mem_cons_self _ _)
  | p :: q :: rest, _, hps => by
    have hp := hps p (List.mem_cons_self _ _)
    have htail := joinWith_noEdgeWs (q :: rest) (List.cons_ne_nil _ _)
      (fun r hr => hps r (List.mem_cons_of_mem _ hr))
    rw [joinWith_cons ' ' p (List.cons_ne_nil _ _)]
    constructor
    · simp [hp.1]
    · exact noEdgeWs_glue hp.1 htail.1 hp.2 htail.2

lemma splitAux_ne_nil : ∀ (prev : Option Char) (acc : Option Str) (l : Str),
    splitAux prev acc l ≠ [] := by
  intro prev acc l
  induction l generalizing prev acc with
  | nil => simp [splitAux]
  | cons c rest ih =>
    cases acc with
    | none =>
      simp only [splitAux]
      split
      · exact ih _ _
      · exact ih _ _
    | some a =>
      simp only [splitAux]
      split
      · simp
      · exact ih _ _

lemma splitSentences_ne_nil (text : Str) : splitSentences text ≠ [] :=
  splitAux_ne_nil _ _ _

lemma chunkAux_join (L : Nat) : ∀ (ps : List Str) (buf : Str), buf ≠ [] → noEdgeWs buf →
    (∀ p ∈ ps, p ≠ [] ∧ noEdgeWs p) →
    chunkAux L ps buf ≠ [] ∧
    joinWith ' ' (chunkAux L ps buf) = joinWith ' ' (buf :: ps) := by
  intro ps
  induction ps with
  | nil =>
    intro buf hne hclean _
    have ht : trim buf = buf := noEdgeWs_trim hclean
    simp [chunkAux, ht, hne, joinWith]
  | cons p rest ih =>
    intro buf hne hclean hps
    have hp := hps p (List.mem_cons_self _ _)
    have hrest : ∀ q ∈ rest, q ≠ [] ∧ noEdgeWs q :=
      fun q hq => hps q (List.mem_cons_of_mem _ hq)
    by_cases hcond : (buf ++ ' ' :: p).length > L
    · have hrec := ih p hp.1 hp.2 hrest
      constructor
      · show chunkAux L (p :: rest) buf ≠ []
        simp only [chunkAux, if_pos hcond]
        exact List.cons_ne_nil _ _
      · show joinWith ' ' (chunkAux L (p :: rest) buf) = _
        simp only [chunkAux, if_pos hcond]
        rw [joinWith_cons ' ' (trim buf) hrec.1, hrec.2, noEdgeWs_trim hclean,
          joinWith_cons ' ' buf (List.cons_ne_nil _ _)]
    · have hbuf' : (buf ++ ' ' :: p) ≠ [] := by simp
      have hrec := ih (buf ++ ' ' :: p) hbuf' (noEdgeWs_glue hne hp.1 hclean hp.2) hrest
      constructor
      · show chunkAux L (p :: rest) buf ≠ []
        simp only [chunkAux, if_neg hcond, if_neg hne]
        exact hrec.1
      · show joinWith ' ' (chunkAux L (p :: rest) buf) = _
        simp only [chunkAux, if_neg hcond, if_neg hne]
        rw [hrec.2, joinWith_glue]

lemma chunkAux_fits (L : Nat) : ∀ (ps : List Str) (buf : Str), buf ≠ [] →
    (joinWith ' ' (buf :: ps)).length ≤ L →
    chunkAux L ps buf =
      if trim (joinWith ' ' (buf :: ps)) = [] then []
      else [trim (joinWith ' ' (buf :: ps))] := by
  intro ps
  induction ps with
  | nil =>
    intro buf _ _
    simp [chunkAux, joinWith]
  | cons p rest ih =>
    intro buf hne hfit
    rw [joinWith_cons ' ' buf (List.cons_ne_nil _ _)] at hfit
    have hplen := length_le_joinWith_head ' ' p rest
    have hcond : ¬ (buf ++ ' ' :: p).length > L := by
      simp only [List.length_append, List.length_cons] at hfit ⊢
      omega
    have hbuf' : (buf ++ ' ' :: p) ≠ [] := by simp
    have hfit' : (joinWith ' ' ((buf ++ ' ' :: p) :: rest)).length ≤ L := by
      rw [joinWith_glue, joinWith_cons ' ' buf (List.cons_ne_nil _ _)]
      exact hfit
    simp only [chunkAux, if_neg hcond, if_neg hne]
    rw [ih (buf ++ ' ' :: p) hbuf' hfit', joinWith_glue]

lemma chunkAux_mem (L : Nat) (P : List Str) : ∀ (ps : List Str) (buf : Str),
    (∀ p ∈ ps, p ∈ P) → (buf = [] ∨ buf.length ≤ L ∨ buf ∈ P) →
    ∀ c ∈ chunkAux L ps buf,
      c.length ≤ L ∨ ∃ p, p ∈ P ∧ c = trim p ∧ L < p.length := by
  intro ps
  induction ps with
  | nil =>
    intro buf _ hbuf c hc
    simp only [chunkAux] at hc
    by_cases hg : trim buf = []
    · rw [if_pos hg] at hc
      simp at hc
    · rw [if_neg hg] at hc
      rw [List.mem_singleton] at hc
      subst hc
      rcases hbuf with rfl | hlen | hmem
      · exact absurd trim_nil hg
      · exact Or.inl (Nat.le_trans (trim_length_le buf) hlen)
      · by_cases hcl : (trim buf).length ≤ L
        · exact Or.inl hcl
        · refine Or.inr ⟨buf, hmem, rfl, ?_⟩
          have := trim_length_le buf
          omega
  | cons p rest ih =>
    intro buf hP hbuf c hc
    have hpP := hP p (List.mem_cons_self _ _)
    have hrest : ∀ q ∈ rest, q ∈ P := fun q hq => hP q (List.mem_cons_of_mem _ hq)
    by_cases hcond : (buf ++ ' ' :: p).length > L
    · simp only [chunkAux, if_pos hcond, List.mem_cons] at hc
      rcases hc with rfl | hc
      · rcases hbuf with rfl | hlen | hmem
        · exact Or.inl (by simp [trim_nil])
        · exact Or.inl (Nat.le_trans (trim_length_le buf) hlen)
        · by_cases hcl : (trim buf).length ≤ L
          · exact Or.inl hcl
          · exact Or.inr ⟨buf, hmem, rfl, by
              have := trim_length_le buf
              omega⟩
      · exact ih p hrest (Or.inr (Or.inr hpP)) c hc
    · simp only [chunkAux, if_neg hcond] at hc
      by_cases hbe : buf = []
      · rw [if_pos hbe] at hc
        exact ih p hrest (Or.inr (Or.inr hpP)) c hc
      · rw [if_neg hbe] at hc
        refine ih (buf ++ ' ' :: p) hrest (Or.inr (Or.inl ?_)) c hc
        omega

/-- C2 counterexample: the chunker is not lossless.  For the input
`"Hi.  Bye."` (two spaces after the sentence terminator) and the
source's default maximum length 8000, the chunker produces the single
chunk `"Hi. Bye."`; since there is exactly one chunk, re-joining the
chunks — with the original separating whitespace or any other
separator — yields that chunk itself, which differs from the input:
the double space was collapsed to a single space. -/
theorem chunk_lossless_cex :
    chunk ("Hi.  Bye.".toList) 8000 = [("Hi. Bye.".toList)] ∧
    ("Hi. Bye.".toList : Str) ≠ ("Hi.  Bye.".toList) := by
  decide

/-- C2 (amended): losslessness holds exactly for whitespace-normalized
input: when every sentence piece is non-empty with no leading or
trailing whitespace, the pieces joined by single spaces reproduce the
text (i.e. every separator the split consumed was a single space and
the text has no edge whitespace), and the first piece is shorter than
the maximum length (so no empty chunk is flushed), joining the
produced chunks with single spaces reproduces the input text. -/
theorem chunk_join_normalized (text : Str) (L : Nat)
    (hpieces : ∀ p ∈ splitSentences text, p ≠ [] ∧ noEdgeWs p)
    (hjoin : joinWith ' ' (splitSentences text) = text)
    (hfit : ((splitSentences text).headD []).length < L) :
    joinWith ' ' (chunk text L) = text := by
  obtain ⟨p1, rest, hps⟩ : ∃ p1 rest, splitSentences text = p1 :: rest := by
    cases h : splitSentences text with
    | nil => exact absurd h (splitSentences_ne_nil text)
    | cons a b => exact ⟨a, b, rfl⟩
  rw [hps] at hpieces hjoin hfit
  have hp1 := hpieces p1 (List.mem_cons_self _ _)
  have hL : ¬ (([] : Str) ++ ' ' :: p1).length > L := by
    simp only [List.headD_cons] at hfit
    simp only [List.nil_append, List.length_cons]
    omega
  unfold chunk
  rw [hps]
  show joinWith ' ' (chunkAux L (p1 :: rest) []) = text
  simp only [chunkAux, if_neg hL, if_pos rfl, if_true]
  have h := chunkAux_join L rest p1 hp1.1 hp1.2
    (fun q hq => hpieces q (List.mem_cons_of_mem _ hq))
  rw [h.2, hjoin]

/-- C2 witness: a concrete whitespace-normalized text on which the
amended losslessness statement applies. -/
theorem chunk_join_normalized_witness :
    joinWith ' ' (chunk ("Hi. Bye.".toList) 100) = ("Hi. Bye.".toList) :=
  chunk_join_normalized ("Hi. Bye.".toList) 100 (by decide) (by decide) (by decide)

/-- C6: every chunk the chunker produces has length at most the
maximum, except chunks that are (the trim of) a single oversized
sentence piece of the input, which are emitted as that whole sentence
rather than truncated to the maximum. -/
theorem chunk_length_bound (text : Str) (L : Nat) (c : Str) (hc : c ∈ chunk text L) :
    c.length ≤ L ∨
    ∃ p, p ∈ splitSentences text ∧ c = trim p ∧ L < p.length :=
  chunkAux_mem L (splitSentences text) (splitSentences text) []
    (fun _ hp => hp) (Or.inl rfl) c hc

/-- C6 witness: with maximum length 3, the irreducible sentence
`"aaaaa"` is emitted whole. -/
theorem chunk_length_bound_witness :
    ("aaaaa".toList : Str).length ≤ 3 ∨
    ∃ p, p ∈ splitSentences ("aaaaa".toList) ∧
      ("aaaaa".toList : Str) = trim p ∧ 3 < p.length :=
  chunk_length_bound ("aaaaa".toList) 3 ("aaaaa".toList) (by decide)

/-- C8 counterexample: the text `" a"` has length 2, below the maximum
length 100, yet chunking it yields `["a"]`, not `[" a"]` — the final
buffer is trimmed before being flushed, so the single produced chunk
differs from the input. -/
theorem chunk_not_single_cex :
    (" a".toList : Str).length < 100 ∧
    chunk (" a".toList) 100 = [("a".toList)] ∧
    chunk (" a".toList) 100 ≠ [(" a".toList)] := by
  decide

/-- C8 (amended): idempotence holds for whitespace-normalized text:
when every sentence piece is non-empty with no edge whitespace, the
pieces joined by single spaces reproduce the text, and the text's
length is below the maximum length, the chunker produces exactly one
chunk equal to the input (such a text is necessarily non-empty; the
empty text instead produces zero chunks). -/
theorem chunk_single_normalized (text : Str) (L : Nat)
    (hpieces : ∀ p ∈ splitSentences text, p ≠ [] ∧ noEdgeWs p)
    (hjoin : joinWith ' ' (splitSentences text) = text)
    (hlen : text.length < L) :
    chunk text L = [text] := by
  obtain ⟨p1, rest, hps⟩ : ∃ p1 rest, splitSentences text = p1 :: rest := by
    cases h : splitSentences text with
    | nil => exact absurd h (splitSentences_ne_nil text)
    | cons a b => exact ⟨a, b, rfl⟩
  rw [hps] at hpieces hjoin
  have hp1 := hpieces p1 (List.mem_cons_self _ _)
  have htext := joinWith_noEdgeWs (p1 :: rest) (List.cons_ne_nil _ _) hpieces
  rw [hjoin] at htext
  have hp1len : p1.length ≤ text.length := by
    have := length_le_joinWith_head ' ' p1 rest
    rw [hjoin] at this
    exact this
  have hL : ¬ (([] : Str) ++ ' ' :: p1).length > L := by
    simp only [List.nil_append, List.length_cons]
    omega
  unfold chunk
  rw [hps]
  show chunkAux L (p1 :: rest) [] = [text]
  simp only [chunkAux, if_neg hL, if_pos rfl, if_true]
  rw [chunkAux_fits L rest p1 hp1.1 (by rw [hjoin]; omega), hjoin,
    noEdgeWs_trim htext.2, if_neg htext.1]

/-- C8 witness: a concrete already-chunk-sized normalized text yields
exactly one chunk equal to the input. -/
theorem chunk_single_normalized_witness :
    chunk ("Ok! Go.".toList) 50 = [("Ok! Go.".toList)] :=
  chunk_single_normalized ("Ok! Go.".toList) 50 (by decide) (by decide) (by decide)

/-- C9: when the first sentence piece of the input has length at least
the maximum length, the first flush happens while the buffer is still
empty, so the chunker's first emitted chunk is the empty string. -/
theorem chunk_oversized_first_empty (text : Str) (L : Nat) (p : Str) (ps : List Str)
    (hsplit : splitSentences text = p :: ps) (hlen : L ≤ p.length) :
    (chunk text L).head? = some [] := by
  unfold chunk
  rw [hsplit]
  have hcond : (([] : Str) ++ ' ' :: p).length > L := by
    simp only [List.nil_append, List.length_cons]
    omega
  show (chunkAux L (p :: ps) []).head? = some []
  simp only [chunkAux, if_pos hcond]
  simp [trim_nil]

/-- C9 witness: with maximum length 3 and the single oversized piece
`"aaaa"`, the chunk list starts with the empty string. -/
theorem chunk_oversized_first_empty_witness :
    (chunk ("aaaa".toList) 3).head? = some [] :=
  chunk_oversized_first_empty ("aaaa".toList) 3 ("aaaa".toList) [] (by decide) (by decide)

/-- C7 counterexample: the resolver succeeds on
`"https://youtu.be/abc"` and returns `"abc"`, which does not match the
11-character identifier grammar — ids extracted from URLs are returned
without re-validation. -/
theorem extractVideoId_not_grammar_cex :
    extractVideoId ("https://youtu.be/abc".toList) = some ("abc".toList) ∧
    matchesIdGrammar ("abc".toList) = false := by
  decide

/-- C7 (amended): only the bare-identifier rule guarantees the
grammar: an input that already matches the 11-character grammar is
returned unchanged (and the result therefore matches the grammar);
ids extracted from URLs carry no such guarantee. -/
theorem extractVideoId_grammar_id (s : Str) (h : matchesIdGrammar s = true) :
    extractVideoId s = some s ∧ matchesIdGrammar s = true := by
  unfold extractVideoId
  rw [if_pos h]
  exact ⟨rfl, h⟩

/-- C7 witness: a concrete valid 11-character identifier is returned
unchanged. -/
theorem extractVideoId_grammar_id_witness :
    extractVideoId ("dQw4w9WgXcQ".toList) = some ("dQw4w9WgXcQ".toList) ∧
    matchesIdGrammar ("dQw4w9WgXcQ".toList) = true :=
  extractVideoId_grammar_id ("dQw4w9WgXcQ".toList) (by decide)

/-- C3: the transcript acquirer runs its tiers strictly in order (the
attempted-tier list is always a prefix of `[1, 2, 3]`); a tier outcome
is `none` exactly when that fetch threw or returned an empty cue list;
tier 2 is attempted iff tier 1 produced nothing; tier 3 is attempted
iff tiers 1 and 2 produced nothing and a metadata key is configured; a
producing tier's text is returned; tier 3 synthesizes
`title + "\n" + description`; and when all tiers produce nothing the
acquirer reports unavailability (`none`). -/
theorem fetchTranscript_tier_order (env : GenEnv) (vid : Str) :
    (∀ r : Except Unit (List Str), tierTexts r = none ↔ (r = .error () ∨ r = .ok [])) ∧
    ((fetchTranscriptT env vid).fst = [1] ∨ (fetchTranscriptT env vid).fst = [1, 2] ∨
      (fetchTranscriptT env vid).fst = [1, 2, 3]) ∧
    ((2 ∈ (fetchTranscriptT env vid).fst) ↔ tierTexts (env.tier1 vid) = none) ∧
    ((3 ∈ (fetchTranscriptT env vid).fst) ↔
      (tierTexts (env.tier1 vid) = none ∧ tierTexts (env.tier2 vid) = none ∧
        env.apiKey ≠ none)) ∧
    (∀ t, tierTexts (env.tier1 vid) = some t → fetchTranscript env vid = some t) ∧
    (tierTexts (env.tier1 vid) = none → ∀ t, tierTexts (env.tier2 vid) = some t →
      fetchTranscript env vid = some t) ∧
    (tierTexts (env.tier1 vid) = none → tierTexts (env.tier2 vid) = none →
      ∀ ti de, env.meta vid = .ok (some (ti, de)) → env.apiKey ≠ none →
        fetchTranscript env vid = some (ti ++ '\n' :: de)) ∧
    (tierTexts (env.tier1 vid) = none → tierTexts (env.tier2 vid) = none →
      (∀ ti de, env.meta vid ≠ .ok (some (ti, de))) →
      fetchTranscript env vid = none) := by
  have hTT : ∀ r : Except Unit (List Str), tierTexts r = none ↔ (r = .error () ∨ r = .ok []) := by
    intro r
    cases r with
    | error e => cases e; simp [tierTexts]
    | ok ts =>
      cases ts with
      | nil => simp [tierTexts]
      | cons a t => simp [tierTexts]
  refine ⟨hTT, ?_⟩
  rcases h1 : tierTexts (env.tier1 vid) with _ | t1
  case some =>
    simp [fetchTranscriptT, fetchTranscript, h1]
  case none =>
    rcases h2 : tierTexts (env.tier2 vid) with _ | t2
    case some =>
      simp [fetchTranscriptT, fetchTranscript, h1, h2]
    case none =>
      rcases hk : env.apiKey with _ | k
      case some =>
        rcases hm : env.meta vid with e | m
        case error =>
          cases e
          simp [fetchTranscriptT, fetchTranscript, h1, h2, hk, hm]
        case ok =>
          rcases m with _ | ⟨ti, de⟩
          · simp [fetchTranscriptT, fetchTranscript, h1, h2, hk, hm]
          · simp [fetchTranscriptT, fetchTranscript, h1, h2, hk, hm]
      case none =>
        simp [fetchTranscriptT, fetchTranscript, h1, h2, hk]

/-- C3 witness: with tier 1 throwing, tier 2 empty, and a configured
metadata service returning title `"T"` and description `"D"`, the
acquirer attempts all three tiers and synthesizes the transcript
`"T\nD"`. -/
theorem fetchTranscript_tier_order_witness :
    fetchTranscript envC3 ("dQw4w9WgXcQ".toList) = some ("T".toList ++ '\n' :: "D".toList) :=
  (fetchTranscript_tier_order envC3 ("dQw4w9WgXcQ".toList)).2.2.2.2.2.2.1 rfl rfl
    ("T".toList) ("D".toList) rfl (by decide)

lemma joinWith_ne_nil (c : Char) : ∀ (l : List Str), l ≠ [] → (∀ p ∈ l, p ≠ []) →
    joinWith c l ≠ []
  | [], h, _ => absurd rfl h
  | [p], _, hp => by simpa [joinWith] using hp p (List.mem_cons_self _ _)
  | p :: q :: t, _, _ => by
    rw [joinWith_cons c p (List.cons_ne_nil _ _)]
    simp

/-- C4: once stage 1 has run (a resolvable reference, an available
non-empty transcript, at least one chunk), stage 2 is invoked — with
the non-empty stage-1 outputs joined newline-separated in chunk
order — exactly when some stage-1 output is non-empty; when every
stage-1 call failed, stage 2 is never invoked and the result is the
"Summary unavailable" sentinel. -/
theorem stage_two_gate (env : GenEnv) (url vid tr : Str)
    (h1 : extractVideoId url = some vid) (h2 : ¬ vid = [])
    (h3 : fetchTranscript env vid = some tr) (h4 : ¬ tr = [])
    (h5 : ¬ (chunk tr 6500).length = 0) :
    ((∃ p ∈ stageOne env (chunk tr 6500), p ≠ []) →
      (summarizeT env url).snd =
        some (joinWith '\n' ((stageOne env (chunk tr 6500)).filter (fun p => !p.isEmpty)))) ∧
    ((∀ p ∈ stageOne env (chunk tr 6500), p = []) →
      (summarizeT env url).snd = none ∧
      summarizeYouTube env url = allFailedResult) := by
  constructor
  · intro hex
    have hcomb : joinWith '\n' ((stageOne env (chunk tr 6500)).filter (fun p => !p.isEmpty)) ≠ [] := by
      apply joinWith_ne_nil
      · obtain ⟨p, hp, hne⟩ := hex
        intro hnil
        have hmem : p ∈ (stageOne env (chunk tr 6500)).filter (fun p => !p.isEmpty) :=
          List.mem_filter.mpr ⟨hp, by simpa using hne⟩
        rw [hnil] at hmem
        simp at hmem
      · intro p hp
        have := (List.mem_filter.mp hp).2
        simpa using this
    simp only [summarizeT, h1, h3]
    rw [if_neg h2, if_neg h4]
    simp only [if_neg h5, if_neg hcomb]
    cases hg : env.gen2 (joinWith '\n' ((stageOne env (chunk tr 6500)).filter (fun p => !p.isEmpty))) with
    | error e => rfl
    | ok o =>
      cases o with
      | none => rfl
      | some out => rfl
  · intro hall
    have hfil : (stageOne env (chunk tr 6500)).filter (fun p => !p.isEmpty) = [] := by
      rw [List.filter_eq_nil_iff]
      intro p hp
      simp [hall p hp]
    have hcomb : joinWith '\n' ((stageOne env (chunk tr 6500)).filter (fun p => !p.isEmpty)) = [] := by
      rw [hfil]
      rfl
    constructor
    · simp only [summarizeT, h1, h3]
      rw [if_neg h2, if_neg h4]
      simp only [if_neg h5, if_pos hcomb]
    · show (summarizeT env url).fst = allFailedResult
      simp only [summarizeT, h1, h3]
      rw [if_neg h2, if_neg h4]
      simp only [if_neg h5, if_pos hcomb]

/-- C4 witness: a concrete run whose single stage-1 call produced
`"bp"`; stage 2 is invoked with exactly that text. -/
theorem stage_two_gate_witness :
    (summarizeT envC4 ("dQw4w9WgXcQ".toList)).snd = some ("bp".toList) := by
  have h := (stage_two_gate envC4 ("dQw4w9WgXcQ".toList) ("dQw4w9WgXcQ".toList)
    ("Hello.".toList) (by decide) (by decide) (by decide) (by decide) (by decide)).1
    ⟨"bp".toList, by decide, by decide⟩
  exact h.trans (by decide)

/-- C1: the pipeline is a total function of its oracles — it never
raises — and its result is always one of the six terminal states:
invalid reference, transcript unavailable, empty transcript,
all-chunks-failed, reduction-failed (no output, or the thrown-stage-2
"Summary generation error" sentinel) or success (the stage-2 output
itself); the six sentinel results are pairwise distinct; and whenever
the stage-2 call is reached and throws — the only effectful call of
the flow body not absorbed earlier — the exception is caught and
converted to the "Summary generation error" result rather than
propagating. -/
theorem summarize_terminal_states (env : GenEnv) (url : Str) :
    (summarizeYouTube env url = invalidResult ∨
     summarizeYouTube env url = unavailableResult ∨
     summarizeYouTube env url = emptyTranscriptResult ∨
     summarizeYouTube env url = allFailedResult ∨
     summarizeYouTube env url = noOutputResult ∨
     summarizeYouTube env url = genErrorResult ∨
     (∃ c out, env.gen2 c = .ok (some out) ∧ summarizeYouTube env url = out)) ∧
    ([invalidResult, unavailableResult, emptyTranscriptResult, allFailedResult,
      noOutputResult, genErrorResult].Pairwise (fun a b => a ≠ b)) ∧
    (∀ c, (summarizeT env url).snd = some c → env.gen2 c = .error () →
      summarizeYouTube env url = genErrorResult) := by
  refine ⟨?_, by decide, ?_⟩
  · cases hx : extractVideoId url with
    | none => exact Or.inl (by simp [summarizeYouTube, summarizeT, hx])
    | some vid =>
      by_cases hv : vid = []
      · exact Or.inl (by simp [summarizeYouTube, summarizeT, hx, hv])
      · cases hf : fetchTranscript env vid with
        | none =>
          exact Or.inr (Or.inl (by simp [summarizeYouTube, summarizeT, hx, hv, hf]))
        | some tr =>
          by_cases ht : tr = []
          · exact Or.inr (Or.inl (by simp [summarizeYouTube, summarizeT, hx, hv, hf, ht]))
          · by_cases hp : (chunk tr 6500).length = 0
            · exact Or.inr (Or.inr (Or.inl
                (by simp [summarizeYouTube, summarizeT, hx, hv, hf, ht, hp])))
            · by_cases hc : joinWith '\n'
                  ((stageOne env (chunk tr 6500)).filter (fun p => !p.isEmpty)) = []
              · exact Or.inr (Or.inr (Or.inr (Or.inl
                  (by simp [summarizeYouTube, summarizeT, hx, hv, hf, ht, hp, hc]))))
              · cases hg : env.gen2 (joinWith '\n'
                    ((stageOne env (chunk tr 6500)).filter (fun p => !p.isEmpty))) with
                | error e =>
                  cases e
                  exact Or.inr (Or.inr (Or.inr (Or.inr (Or.inr (Or.inl
                    (by simp [summarizeYouTube, summarizeT, hx, hv, hf, ht, hp, hc, hg]))))))
                | ok o =>
                  cases o with
                  | none =>
                    exact Or.inr (Or.inr (Or.inr (Or.inr (Or.inl
                      (by simp [summarizeYouTube, summarizeT, hx, hv, hf, ht, hp, hc, hg])))))
                  | some out =>
                    refine Or.inr (Or.inr (Or.inr (Or.inr (Or.inr (Or.inr
                      ⟨joinWith '\n' ((stageOne env (chunk tr 6500)).filter
                          (fun p => !p.isEmpty)), out, hg, ?_⟩)))))
                    simp [summarizeYouTube, summarizeT, hx, hv, hf, ht, hp, hc, hg]
  · intro c hsnd hgerr
    cases hx : extractVideoId url with
    | none => simp [summarizeT, hx] at hsnd
    | some vid =>
      by_cases hv : vid = []
      · simp [summarizeT, hx, hv] at hsnd
      · cases hf : fetchTranscript env vid with
        | none => simp [summarizeT, hx, hv, hf] at hsnd
        | some tr =>
          by_cases ht : tr = []
          · simp [summarizeT, hx, hv, hf, ht] at hsnd
          · by_cases hp : (chunk tr 6500).length = 0
            · simp [summarizeT, hx, hv, hf, ht, hp] at hsnd
            · by_cases hc : joinWith '\n'
                  ((stageOne env (chunk tr 6500)).filter (fun p => !p.isEmpty)) = []
              · simp [summarizeT, hx, hv, hf, ht, hp, hc] at hsnd
              · cases hg : env.gen2 (joinWith '\n'
                    ((stageOne env (chunk tr 6500)).filter (fun p => !p.isEmpty))) with
                | error e =>
                  cases e
                  simp [summarizeYouTube, summarizeT, hx, hv, hf, ht, hp, hc, hg]
                | ok o =>
                  cases o with
                  | none =>
                    simp [summarizeT, hx, hv, hf, ht, hp, hc, hg] at hsnd
                    rw [← hsnd] at hgerr
                    rw [hg] at hgerr
                    cases hgerr
                  | some out =>
                    simp [summarizeT, hx, hv, hf, ht, hp, hc, hg] at hsnd
                    rw [← hsnd] at hgerr
                    rw [hg] at hgerr
                    cases hgerr

/-- C1 witness: a concrete run that reaches stage 2 whose generation
call throws; the pipeline returns the "Summary generation error"
sentinel instead of raising. -/
theorem summarize_terminal_states_witness :
    summarizeYouTube envC1 ("dQw4w9WgXcQ".toList) = genErrorResult :=
  (summarize_terminal_states envC1 ("dQw4w9WgXcQ".toList)).2.2 ("pt".toList)
    (by decide) rfl

lemma runLimiter_no_prune : ∀ (ts : List Int) (st : List Int),
    (∀ a ∈ st, ∀ t ∈ ts, t - a < WINDOW_MS) →
    ts.Pairwise (fun a b => b - a < WINDOW_MS) →
    (runLimiter st ts).fst = st ++ ts ∧
    (runLimiter st ts).snd = expectedDecisions st.length ts.length := by
  intro ts
  induction ts with
  | nil =>
    intro st _ _
    simp [runLimiter, expectedDecisions]
  | cons t ts ih =>
    intro st hcross hpair
    have hfilter : st.filter (fun a => decide (t - a < WINDOW_MS)) = st := by
      apply List.filter_eq_self.mpr
      intro a ha
      simpa using hcross a ha t (List.mem_cons_self _ _)
    rw [List.pairwise_cons] at hpair
    have hstep : rateStep st t = (st ++ [t], decide (st.length + 1 ≤ MAX_REQ)) := by
      simp [rateStep, hfilter]
    have hcross' : ∀ a ∈ st ++ [t], ∀ u ∈ ts, u - a < WINDOW_MS := by
      intro a ha u hu
      rcases List.mem_append.mp ha with h | h
      · exact hcross a h u (List.mem_cons_of_mem _ hu)
      · rw [List.mem_singleton] at h
        subst h
        exact hpair.1 u hu
    have hrec := ih (st ++ [t]) hcross' hpair.2
    have hlen : (st ++ [t]).length = st.length + 1 := by simp
    constructor
    · show (runLimiter (rateStep st t).fst ts).fst = st ++ t :: ts
      rw [hstep]
      rw [hrec.1]
      simp
    · show (rateStep st t).snd :: (runLimiter (rateStep st t).fst ts).snd =
        expectedDecisions st.length (ts.length + 1)
      rw [hstep]
      show decide (st.length + 1 ≤ MAX_REQ) :: (runLimiter (st ++ [t]) ts).snd = _
      rw [hrec.2, hlen]
      rfl

/-- C5: the admission limiter, per client identity, (i) prunes the
recorded timestamps to those younger than the window, appends the
current time, and admits exactly when the resulting count is at most
the threshold; (ii) rejects the 16th request of any run of 16 requests
whose times all lie within one 30-second window (starting from an
empty record); and (iii) admits again any request arriving a full
window or more after every recorded timestamp. -/
theorem rate_limiter_window :
    (∀ (arr : List Int) (now : Int),
        (rateStep arr now).fst =
          arr.filter (fun u => decide (now - u < WINDOW_MS)) ++ [now] ∧
        ((rateStep arr now).snd = true ↔ (rateStep arr now).fst.length ≤ MAX_REQ)) ∧
    (∀ ts : List Int, ts.Pairwise (fun a b => b - a < WINDOW_MS) → ts.length = 16 →
        (runLimiter [] ts).snd.getLast? = some false) ∧
    (∀ (st : List Int) (now : Int), (∀ u ∈ st, WINDOW_MS ≤ now - u) →
        rateStep st now = ([now], true)) := by
  refine ⟨?_, ?_, ?_⟩
  · intro arr now
    exact ⟨rfl, by simp [rateStep]⟩
  · intro ts hpair hlen
    have h := runLimiter_no_prune ts [] (by simp) hpair
    rw [h.2]
    simp only [List.length_nil, hlen]
    decide
  · intro st now h
    have hfilter : st.filter (fun u => decide (now - u < WINDOW_MS)) = [] := by
      rw [List.filter_eq_nil_iff]
      intro a ha
      have := h a ha
      simp only [decide_eq_true_eq]
      omega
    simp [rateStep, hfilter, MAX_REQ]

/-- C5 witness: sixteen same-instant requests end in a rejection, and
one request a full window after a lone recorded timestamp is
admitted. -/
theorem rate_limiter_window_witness :
    (runLimiter [] (List.replicate 16 0)).snd.getLast? = some false ∧
    rateStep [0] 30000 = ([30000], true) :=
  ⟨rate_limiter_window.2.1 (List.replicate 16 0) (by decide) (by decide),
   rate_limiter_window.2.2 [0] 30000 (by decide)⟩

/-- C10: the limiter stores the pruned record with the current
timestamp appended before the threshold check, for admitted and
rejected requests alike, so a rejected request still counts against
the identity.  Concretely: after 15 admitted requests at time 0 and a
16th rejected request at time 5, a run of 15 further requests at time
30000 (when the time-0 entries have aged out but the rejected
request's timestamp has not) ends in a rejection, whereas the same run
without the rejected request ends in an admission. -/
theorem rate_records_all_requests :
    (∀ (arr : List Int) (now : Int),
        (rateStep arr now).fst =
          arr.filter (fun u => decide (now - u < WINDOW_MS)) ++ [now]) ∧
    (runLimiter []
        (List.replicate 15 0 ++ [5] ++ List.replicate 15 30000)).snd.getLast? =
      some false ∧
    (runLimiter []
        (List.replicate 15 0 ++ List.replicate 15 30000)).snd.getLast? =
      some true :=
  ⟨fun _ _ => rfl, by decide, by decide⟩
